import Mathlib

/-!
Shallow embedding of the `keepassxc-recover` tool (Python sources
`recover/credentials.py`, `recover/progress.py`, `recover/recovery.py`).

Modelling conventions:
* `pathlib.Path` values are modelled by their string form (every `Path` is
  truthy in Python, so `if credential.keyfile:` is `Option.isSome`).
* Python `int` is modelled by `Int` (truthiness of an int is `≠ 0`).
* Timestamps (`datetime.now(...).isoformat()`) are opaque strings passed in
  as a `now` parameter.
* File-system effects (the progress file, its backup, and the success
  summary) are modelled by an explicit `StoreState`; writes are modelled as
  succeeding (the code logs and swallows write errors, which is I/O
  nondeterminism outside the embedding).
* The external `keepassxc-cli` verifier is an oracle `Credential → Bool`
  (exit code 0 iff `true`).
-/

/-- `Credential` dataclass from `recover/credentials.py`: optional
passphrase, optional keyfile path, optional YubiKey slot. -/
structure Credential where
  passphrase : Option String := none
  keyfile : Option String := none
  yubikey_slot : Option Int := none
deriving DecidableEq

/-- The dictionary produced by `Credential.to_dict` (the shape stored in the
progress file's `tried_combinations` list). `str(self.keyfile)` is modelled
as the identity on the path string; a `Path` is always truthy. -/
structure CredentialDict where
  passphrase : Option String
  keyfile : Option String
  yubikey_slot : Option Int
deriving DecidableEq

/-- `Credential.to_dict` from `recover/credentials.py`. -/
def Credential.to_dict (c : Credential) : CredentialDict :=
  ⟨c.passphrase, c.keyfile, c.yubikey_slot⟩

/-- `CredentialManager` state from `recover/credentials.py`
(`__init__` defaults: empty lists, no-passphrase and no-keyfile disabled,
no-yubikey enabled). -/
structure CredentialManager where
  passphrases : List String := []
  keyfiles : List String := []
  yubikey_slots : List Int := []
  include_no_passphrase : Bool := false
  include_no_keyfile : Bool := false
  include_no_yubikey : Bool := true
deriving DecidableEq

namespace CredentialManager

/-- The `passphrase_options` list built at the top of
`generate_combinations`: a copy of `passphrases`, then `None` if
`_include_no_passphrase`, then `None` again if no passphrases were provided
but keyfiles or yubikey slots are present. -/
def passphrase_options (m : CredentialManager) : List (Option String) :=
  m.passphrases.map some
    ++ (if m.include_no_passphrase then [none] else [])
    ++ (if m.passphrases = [] ∧ (m.keyfiles ≠ [] ∨ m.yubikey_slots ≠ [])
        then [none] else [])

/-- The `keyfile_options` list from `generate_combinations`: a copy of
`keyfiles`, then `None` if `_include_no_keyfile` or no keyfiles are
configured. -/
def keyfile_options (m : CredentialManager) : List (Option String) :=
  m.keyfiles.map some
    ++ (if m.include_no_keyfile = true ∨ m.keyfiles = [] then [none] else [])

/-- The `yubikey_options` list from `generate_combinations`: a copy of
`yubikey_slots`, then `None` if `_include_no_yubikey`. -/
def yubikey_options (m : CredentialManager) : List (Option Int) :=
  m.yubikey_slots.map some ++ (if m.include_no_yubikey then [none] else [])

/-- `CredentialManager.generate_combinations`: the `itertools.product` of
the three option lists (passphrase outermost, yubikey innermost), skipping
any triple in which all three components are `None`, yielding
`Credential`s. -/
def generate_combinations (m : CredentialManager) : List Credential :=
  (((m.passphrase_options).product ((m.keyfile_options).product m.yubikey_options)).filter
      fun t => !(t.1.isNone && t.2.1.isNone && t.2.2.isNone)).map
    fun t => { passphrase := t.1, keyfile := t.2.1, yubikey_slot := t.2.2 }

/-- `CredentialManager.count_combinations`: `sum(1 for _ in
self.generate_combinations())`, i.e. the length of the generated
sequence. -/
def count_combinations (m : CredentialManager) : Nat :=
  (m.generate_combinations).length

end CredentialManager

example :
    CredentialManager.count_combinations
      { passphrases := ["a", "b", "c"] } = 3 := by
  decide

example :
    CredentialManager.count_combinations
      { passphrases := ["a", "b"], keyfiles := ["k"],
        include_no_passphrase := true, include_no_keyfile := true } = 5 := by
  decide

/-- `ProgressData` dataclass from `recover/progress.py`. -/
structure ProgressData where
  database_file : String
  database_hash : String
  started_at : String
  last_updated : String
  total_combinations : Nat
  attempts_made : Nat
  tried_combinations : List CredentialDict
  current_index : Nat
  success : Option CredentialDict := none
deriving DecidableEq

/-- The contents of the on-disk progress file as seen by
`ProgressManager.load_progress`: either unparseable (`json.JSONDecodeError`,
`KeyError`, `TypeError` from `ProgressData.from_dict`) or a parsed
`ProgressData`. -/
inductive ProgressFile
  | corrupt
  | valid (data : ProgressData)
deriving DecidableEq

namespace ProgressManager

/-- `ProgressManager.load_progress`: returns `(bool, new _progress)`.
`currentHash` stands for `calculate_database_hash(database_path)` and
`databasePath` for `str(database_path)`; `prior` is the `_progress` field
before the call (`None` after `__init__`); `file` is `None` when the
progress file does not exist. Mirrors the code's order: parse, then hash
check, then path check. -/
def load_progress (currentHash databasePath : String) (prior : Option ProgressData)
    (file : Option ProgressFile) : Bool × Option ProgressData :=
  match file with
  | none => (false, prior)
  | some .corrupt => (false, none)
  | some (.valid d) =>
    if d.database_hash ≠ currentHash then (false, none)
    else if d.database_file ≠ databasePath then (false, none)
    else (true, some d)

/-- `ProgressManager.create_new_progress` (the in-memory record it builds:
zero attempts, empty tried-list, index 0, identical start/update
timestamps). -/
def create_new_progress (databasePath databaseHash now : String)
    (total_combinations : Nat) : ProgressData :=
  { database_file := databasePath
    database_hash := databaseHash
    started_at := now
    last_updated := now
    total_combinations := total_combinations
    attempts_made := 0
    tried_combinations := []
    current_index := 0
    success := none }

/-- Core of `ProgressManager.is_combination_tried` on a present record:
structural membership of `credential.to_dict()` in `tried_combinations`. -/
def isTriedP (c : Credential) (p : ProgressData) : Bool :=
  decide (c.to_dict ∈ p.tried_combinations)

/-- `ProgressManager.is_combination_tried`: `False` when `_progress` is
unset. -/
def is_combination_tried (c : Credential) : Option ProgressData → Bool
  | none => false
  | some p => isTriedP c p

/-- Core of `ProgressManager.mark_combination_tried` on a present record:
returns the new record and whether `_save_progress` was triggered (every
10th effective attempt). -/
def markTriedP (c : Credential) (now : String) (p : ProgressData) :
    ProgressData × Bool :=
  if c.to_dict ∈ p.tried_combinations then (p, false)
  else
    ({ p with
        tried_combinations := p.tried_combinations ++ [c.to_dict]
        attempts_made := p.attempts_made + 1
        current_index := p.current_index + 1
        last_updated := now },
     decide ((p.attempts_made + 1) % 10 = 0))

/-- `ProgressManager.mark_combination_tried`: no-op when `_progress` is
unset; otherwise `markTriedP`. Second component: whether a durable flush
(`_save_progress`) happened. -/
def mark_combination_tried (c : Credential) (now : String) :
    Option ProgressData → Option ProgressData × Bool
  | none => (none, false)
  | some p => ((markTriedP c now p).1, (markTriedP c now p).2)

/-- Core of `ProgressManager.mark_success` on a present record: store the
winning credential's dict and update the timestamp. -/
def markSuccessP (c : Credential) (now : String) (p : ProgressData) :
    ProgressData :=
  { p with success := some c.to_dict, last_updated := now }

/-- `ProgressManager.mark_success`: no-op when `_progress` is unset;
otherwise records the winning credential and always calls
`_save_progress` (second component: whether a flush happened). -/
def mark_success (c : Credential) (now : String) :
    Option ProgressData → Option ProgressData × Bool
  | none => (none, false)
  | some p => (some (markSuccessP c now p), true)

/-- `ProgressManager.get_skip_count`: `attempts_made` of the record, `0`
when unset. -/
def get_skip_count : Option ProgressData → Nat
  | none => 0
  | some p => p.attempts_made

end ProgressManager

/-- The success-summary JSON written by `cleanup_progress`
(`.success.json`): database file, hash, winning credential dict,
completion timestamp, total attempts. -/
structure SuccessSummary where
  database_file : String
  database_hash : String
  success_credential : CredentialDict
  completed_at : String
  total_attempts : Nat
deriving DecidableEq

/-- File-system-level state of a `ProgressManager`: the in-memory record,
whether the working progress file and its `.json.backup` sibling exist,
the working file's parsed content, and the `.success.json` summary (if
written). -/
structure StoreState where
  progress : Option ProgressData
  file_present : Bool
  file_content : Option ProgressData
  backup_present : Bool
  success_file : Option SuccessSummary
deriving DecidableEq

namespace ProgressManager

/-- `ProgressManager._save_progress`: no-op when `_progress` is unset;
otherwise renames any existing progress file to the backup name (replacing
a previous backup) and writes the record to a fresh progress file. Writes
are modelled as succeeding. -/
def save_progress (s : StoreState) : StoreState :=
  match s.progress with
  | none => s
  | some p =>
    let s1 := if s.file_present
              then { s with file_present := false, backup_present := true }
              else s
    { s1 with file_present := true, file_content := some p }

/-- `ProgressManager.mark_success` including its `_save_progress` call, at
the file-system level. -/
def mark_success_store (c : Credential) (now : String) (s : StoreState) :
    StoreState :=
  match s.progress with
  | none => s
  | some p => save_progress { s with progress := some (markSuccessP c now p) }

/-- `ProgressManager.cleanup_progress`: if the working progress file
exists, write the success summary (only when a record with a success
credential is held), delete the working file, and delete the backup if it
exists. -/
def cleanup_progress (now : String) (s : StoreState) : StoreState :=
  if s.file_present then
    let s1 :=
      match s.progress with
      | some p =>
        match p.success with
        | some cd =>
          let summary : SuccessSummary :=
            ⟨p.database_file, p.database_hash, cd, now, p.attempts_made⟩
          { s with success_file := some summary }
        | none => s
      | none => s
    let s2 := { s1 with file_present := false, file_content := none }
    if s2.backup_present then { s2 with backup_present := false } else s2
  else s

/-- The on-disk progress file a later `load_progress` call would see in
store state `s` (absent when the file was deleted). -/
def file_on_disk (s : StoreState) : Option ProgressFile :=
  if s.file_present then s.file_content.map ProgressFile.valid else none

end ProgressManager

namespace RecoveryEngine

/-- `RecoveryEngine._build_keepassxc_command`: `['keepassxc-cli', 'open',
'--quiet']`, plus `--key-file <path>` when a keyfile is set (`Path`s are
always truthy), plus `--yubikey <slot>` when the slot is set and nonzero
(Python `if credential.yubikey_slot:` is falsy for both `None` and `0`),
plus `--no-password` when the passphrase is `None`, then the database
path. -/
def build_keepassxc_command (database : String) (c : Credential) :
    List String :=
  ["keepassxc-cli", "open", "--quiet"]
    ++ (match c.keyfile with
        | some k => ["--key-file", k]
        | none => [])
    ++ (match c.yubikey_slot with
        | some slot => if slot = 0 then [] else ["--yubikey", toString slot]
        | none => [])
    ++ (if c.passphrase = none then ["--no-password"] else [])
    ++ [database]

/-- The `input` bytes passed to `subprocess.run` by
`RecoveryEngine._test_credential`: the passphrase followed by a newline
when present, `None` otherwise. -/
def test_credential_input (c : Credential) : Option String :=
  match c.passphrase with
  | some s => some (s ++ "\n")
  | none => none

/-- Observable events of one `RecoveryEngine.run` loop, in order:
a credential handed to the external verifier (`_test_credential`), a
`mark_combination_tried` call, a `mark_success` call, a
`cleanup_progress` call. -/
inductive RunEvent
  | tested (c : Credential)
  | marked (c : Credential)
  | succeeded (c : Credential)
  | cleaned
deriving DecidableEq

/-- The `for credential in ...generate_combinations()` loop of
`RecoveryEngine.run` (lines 154-201), over an established progress record
`p` (the code guarantees one via `load_progress` /
`create_new_progress`). `oracle c` is the external verifier's verdict
(exit code 0). `idx` is `combination_index`, `skip` is the `skip_count`
captured before the loop. Interruption (the asynchronous signal flag) is
modelled as never raised. Returns the event trace, the final record, and
the boolean `run` returns. -/
def runLoop (oracle : Credential → Bool) (now : String) :
    List Credential → ProgressData → Nat → Nat →
      List RunEvent × ProgressData × Bool
  | [], p, _, _ => ([], p, false)
  | c :: rest, p, idx, skip =>
    if idx < skip then
      runLoop oracle now rest p (idx + 1) skip
    else if ProgressManager.isTriedP c p then
      runLoop oracle now rest p (idx + 1) skip
    else
      let p1 := (ProgressManager.markTriedP c now p).1
      if oracle c then
        ([.tested c, .marked c, .succeeded c, .cleaned],
         ProgressManager.markSuccessP c now p1, true)
      else
        let r := runLoop oracle now rest p1 (idx + 1) skip
        (.tested c :: .marked c :: r.1, r.2)

/-- The credentials handed to the external verifier, extracted from a
trace. -/
def testedOf (tr : List RunEvent) : List Credential :=
  tr.filterMap fun e =>
    match e with
    | .tested c => some c
    | _ => none

end RecoveryEngine

/-- Progress records reachable from `create_new_progress` by any sequence
of `mark_combination_tried` and `mark_success` calls (on a present
record). -/
inductive ReachableProgress : ProgressData → Prop
  | create (db hash now : String) (total : Nat) :
      ReachableProgress (ProgressManager.create_new_progress db hash now total)
  | tried (p : ProgressData) (c : Credential) (now : String) :
      ReachableProgress p →
      ReachableProgress (ProgressManager.markTriedP c now p).1
  | succeeded (p : ProgressData) (c : Credential) (now : String) :
      ReachableProgress p →
      ReachableProgress (ProgressManager.markSuccessP c now p)

/-- Spec-side description of the passphrase option set, written from the
claim's words: each configured passphrase, together with the absent
sentinel when the no-passphrase flag is enabled or when no passphrases
were supplied but keyfiles or slots were. -/
def specPassphraseOption (m : CredentialManager) (o : Option String) : Prop :=
  (∃ s ∈ m.passphrases, o = some s) ∨
    (o = none ∧ (m.include_no_passphrase = true ∨
      (m.passphrases = [] ∧ (m.keyfiles ≠ [] ∨ m.yubikey_slots ≠ []))))

/-- Spec-side description of the keyfile option set: each configured
keyfile, together with the absent sentinel when the no-keyfile flag is
enabled or no keyfiles are configured. -/
def specKeyfileOption (m : CredentialManager) (o : Option String) : Prop :=
  (∃ k ∈ m.keyfiles, o = some k) ∨
    (o = none ∧ (m.include_no_keyfile = true ∨ m.keyfiles = []))

/-- Spec-side description of the token option set: each configured slot,
together with the absent sentinel when the no-yubikey flag (enabled by
default) is set. -/
def specYubikeyOption (m : CredentialManager) (o : Option Int) : Prop :=
  (∃ s ∈ m.yubikey_slots, o = some s) ∨
    (o = none ∧ m.include_no_yubikey = true)

/-- Claim C8: `load_progress` returns `False` and leaves the in-memory
record empty whenever the persisted file is absent, corrupt/unparseable,
or carries a fingerprint or database path that does not match the current
target; none of these raises (the function is total). The prior record is
`none`, as established by `ProgressManager.__init__` before the single
`load_progress` call `run` makes. -/
theorem load_progress_rejects_invalid (currentHash databasePath : String)
    (file : Option ProgressFile)
    (h : file = none ∨ file = some .corrupt ∨
      ∃ d, file = some (.valid d) ∧
        (d.database_hash ≠ currentHash ∨ d.database_file ≠ databasePath)) :
    ProgressManager.load_progress currentHash databasePath none file =
      (false, none) := by
  rcases h with h | h | ⟨d, h, hd | hd⟩
  · subst h; rfl
  · subst h; rfl
  · subst h; simp [ProgressManager.load_progress, hd]
  · subst h
    simp only [ProgressManager.load_progress]
    by_cases h2 : d.database_hash = currentHash
    · simp [h2, hd]
    · simp [h2]

/-- Witness for claim C8 at a concrete input: a stored record whose hash
does not match the current database hash is rejected. -/
theorem load_progress_rejects_invalid_witness :
    ((some (ProgressFile.valid
        (ProgressManager.create_new_progress "db.kdbx" "oldhash" "t0" 4)) :
          Option ProgressFile) = none ∨
      (some (ProgressFile.valid
        (ProgressManager.create_new_progress "db.kdbx" "oldhash" "t0" 4)) :
          Option ProgressFile) = some .corrupt ∨
      ∃ d, (some (ProgressFile.valid
        (ProgressManager.create_new_progress "db.kdbx" "oldhash" "t0" 4)) :
          Option ProgressFile) = some (.valid d) ∧
        (d.database_hash ≠ "newhash" ∨ d.database_file ≠ "db.kdbx")) ∧
    ProgressManager.load_progress "newhash" "db.kdbx" none
      (some (ProgressFile.valid
        (ProgressManager.create_new_progress "db.kdbx" "oldhash" "t0" 4))) =
      (false, none) :=
  ⟨Or.inr (Or.inr ⟨_, rfl, Or.inl (by decide)⟩),
    load_progress_rejects_invalid _ _ _
      (Or.inr (Or.inr ⟨_, rfl, Or.inl (by decide)⟩))⟩

/-- Claim C9: `mark_combination_tried` flushes exactly on effective calls
(credential not yet in the tried-list) after which the attempt counter
(`attempts_made + 1`) is a multiple of 10, and never otherwise;
`mark_success` flushes on every call with a non-empty record and on no
other call. -/
theorem flush_policy (c : Credential) (now : String)
    (s : Option ProgressData) :
    ((ProgressManager.mark_combination_tried c now s).2 = true ↔
      ∃ p, s = some p ∧ c.to_dict ∉ p.tried_combinations ∧
        (p.attempts_made + 1) % 10 = 0) ∧
    ((ProgressManager.mark_success c now s).2 = true ↔ s.isSome = true) := by
  constructor
  · cases s with
    | none => simp [ProgressManager.mark_combination_tried]
    | some p =>
      by_cases h : c.to_dict ∈ p.tried_combinations <;>
        simp [ProgressManager.mark_combination_tried,
          ProgressManager.markTriedP, h]
  · cases s <;> simp [ProgressManager.mark_success]

/-- Claim C10: in every record reachable from `create_new_progress` by
`mark_combination_tried` / `mark_success` calls, `attempts_made`, the
length of `tried_combinations`, and `current_index` coincide, and
`get_skip_count` returns exactly the tried-list's length. -/
theorem progress_counters_agree (p : ProgressData)
    (h : ReachableProgress p) :
    p.attempts_made = p.tried_combinations.length ∧
    p.current_index = p.tried_combinations.length ∧
    ProgressManager.get_skip_count (some p) =
      p.tried_combinations.length := by
  have key : p.attempts_made = p.tried_combinations.length ∧
      p.current_index = p.tried_combinations.length := by
    induction h with
    | create db hash now total =>
      simp [ProgressManager.create_new_progress]
    | tried q c now _ ih =>
      by_cases hm : c.to_dict ∈ q.tried_combinations <;>
        simp [ProgressManager.markTriedP, hm, ih.1, ih.2]
    | succeeded q c now _ ih =>
      simpa [ProgressManager.markSuccessP] using ih
  exact ⟨key.1, key.2, key.1⟩

/-- Witness for claim C10 at a concrete reachable record: one effective
`mark_combination_tried` after `create_new_progress`. -/
theorem progress_counters_agree_witness :
    ReachableProgress
      (ProgressManager.markTriedP { passphrase := some "pw" } "t1"
        (ProgressManager.create_new_progress "db.kdbx" "h" "t0" 3)).1 ∧
    ((ProgressManager.markTriedP { passphrase := some "pw" } "t1"
        (ProgressManager.create_new_progress "db.kdbx" "h" "t0" 3)).1.attempts_made =
      (ProgressManager.markTriedP { passphrase := some "pw" } "t1"
        (ProgressManager.create_new_progress "db.kdbx" "h" "t0" 3)).1.tried_combinations.length ∧
      (ProgressManager.markTriedP { passphrase := some "pw" } "t1"
        (ProgressManager.create_new_progress "db.kdbx" "h" "t0" 3)).1.current_index =
      (ProgressManager.markTriedP { passphrase := some "pw" } "t1"
        (ProgressManager.create_new_progress "db.kdbx" "h" "t0" 3)).1.tried_combinations.length ∧
      ProgressManager.get_skip_count
        (some (ProgressManager.markTriedP { passphrase := some "pw" } "t1"
          (ProgressManager.create_new_progress "db.kdbx" "h" "t0" 3)).1) =
      (ProgressManager.markTriedP { passphrase := some "pw" } "t1"
        (ProgressManager.create_new_progress "db.kdbx" "h" "t0" 3)).1.tried_combinations.length) :=
  ⟨ReachableProgress.tried _ _ _
      (ReachableProgress.create "db.kdbx" "h" "t0" 3),
    progress_counters_agree _
      (ReachableProgress.tried _ _ _
        (ReachableProgress.create "db.kdbx" "h" "t0" 3))⟩

/-- Claim C5 counterexample: the program accepts any parseable progress
file (`load_progress` performs no duplicate check), so a record whose
tried-list already holds the same credential dict twice is a reachable
in-memory state; calling `mark_combination_tried` twice on it changes
nothing and leaves the duplicate entry in place, contradicting the claim
that the tried-list is left "with no duplicate entry for that
Credential". -/
theorem mark_twice_duplicate_persists :
    (ProgressManager.mark_combination_tried { passphrase := some "pw" } "t2"
        (ProgressManager.mark_combination_tried { passphrase := some "pw" } "t1"
          (some { database_file := "db.kdbx", database_hash := "h",
                  started_at := "t0", last_updated := "t0",
                  total_combinations := 5, attempts_made := 2,
                  tried_combinations :=
                    [⟨some "pw", none, none⟩, ⟨some "pw", none, none⟩],
                  current_index := 2 })).1).1 =
      some { database_file := "db.kdbx", database_hash := "h",
             started_at := "t0", last_updated := "t0",
             total_combinations := 5, attempts_made := 2,
             tried_combinations :=
               [⟨some "pw", none, none⟩, ⟨some "pw", none, none⟩],
             current_index := 2 } ∧
    List.count (Credential.to_dict { passphrase := some "pw" })
      [(⟨some "pw", none, none⟩ : CredentialDict),
        ⟨some "pw", none, none⟩] = 2 := by
  decide

/-- Claim C5 (amended): for every progress state with a non-empty record
whose tried-list does not already hold a duplicate entry for the
credential, calling `mark_combination_tried` twice with structurally
identical credentials leaves exactly one entry for it, increments the
attempt counter only once (on the first call, and only if the credential
was new), and the second call changes nothing (it returns the unchanged
record and does not flush). -/
theorem mark_combination_tried_idempotent (p : ProgressData) (c : Credential)
    (t1 t2 : String)
    (h : List.count c.to_dict p.tried_combinations ≤ 1) :
    ProgressManager.mark_combination_tried c t2
        (ProgressManager.mark_combination_tried c t1 (some p)).1 =
      ((ProgressManager.mark_combination_tried c t1 (some p)).1, false) ∧
    ∃ q, (ProgressManager.mark_combination_tried c t1 (some p)).1 = some q ∧
      List.count c.to_dict q.tried_combinations = 1 ∧
      q.attempts_made =
        (if c.to_dict ∈ p.tried_combinations then p.attempts_made
          else p.attempts_made + 1) := by
  by_cases hm : c.to_dict ∈ p.tried_combinations
  · have hcount : List.count c.to_dict p.tried_combinations = 1 :=
      Nat.le_antisymm h (List.count_pos_iff.mpr hm)
    refine ⟨?_, p, ?_, hcount, by simp [hm]⟩ <;>
      simp [ProgressManager.mark_combination_tried,
        ProgressManager.markTriedP, hm]
  · have hcount : List.count c.to_dict p.tried_combinations = 0 :=
      List.count_eq_zero.mpr hm
    have hmem2 : c.to_dict ∈ p.tried_combinations ++ [c.to_dict] := by simp
    have h1 : (ProgressManager.mark_combination_tried c t1 (some p)).1 =
        some { p with
          tried_combinations := p.tried_combinations ++ [c.to_dict]
          attempts_made := p.attempts_made + 1
          current_index := p.current_index + 1
          last_updated := t1 } := by
      simp [ProgressManager.mark_combination_tried,
        ProgressManager.markTriedP, hm]
    rw [h1]
    constructor
    · simp [ProgressManager.mark_combination_tried,
        ProgressManager.markTriedP, hmem2]
    · exact ⟨_, rfl, by simp [List.count_append, hcount],
        by simp [hm]⟩

/-- Witness for claim C5 (amended) at a concrete input: a fresh record and
one credential. -/
theorem mark_combination_tried_idempotent_witness :
    List.count (Credential.to_dict { passphrase := some "pw" })
        (ProgressManager.create_new_progress "db.kdbx" "h" "t0" 3).tried_combinations ≤ 1 ∧
    (ProgressManager.mark_combination_tried { passphrase := some "pw" } "t2"
        (ProgressManager.mark_combination_tried { passphrase := some "pw" } "t1"
          (some (ProgressManager.create_new_progress "db.kdbx" "h" "t0" 3))).1 =
      ((ProgressManager.mark_combination_tried { passphrase := some "pw" } "t1"
          (some (ProgressManager.create_new_progress "db.kdbx" "h" "t0" 3))).1,
        false) ∧
      ∃ q, (ProgressManager.mark_combination_tried { passphrase := some "pw" } "t1"
          (some (ProgressManager.create_new_progress "db.kdbx" "h" "t0" 3))).1 =
          some q ∧
        List.count (Credential.to_dict { passphrase := some "pw" })
          q.tried_combinations = 1 ∧
        q.attempts_made =
          (if Credential.to_dict { passphrase := some "pw" } ∈
              (ProgressManager.create_new_progress "db.kdbx" "h" "t0" 3).tried_combinations
            then (ProgressManager.create_new_progress "db.kdbx" "h" "t0" 3).attempts_made
            else (ProgressManager.create_new_progress "db.kdbx" "h" "t0" 3).attempts_made + 1)) :=
  ⟨by decide,
    mark_combination_tried_idempotent
      (ProgressManager.create_new_progress "db.kdbx" "h" "t0" 3)
      { passphrase := some "pw" } "t1" "t2" (by decide)⟩

/-- Claim C7: after `mark_success` (which records the winning credential
and flushes, so the working file exists), `cleanup_progress` writes the
success summary (fingerprint, winning credential, completion time, total
attempts), removes the working progress file, removes the backup file
unconditionally of whether it existed, and a later fresh
`load_progress` against the resulting store finds no resumable record. -/
theorem cleanup_after_success (s : StoreState) (p : ProgressData)
    (c : Credential) (now now2 hash db : String)
    (hp : s.progress = some p) :
    (ProgressManager.cleanup_progress now2
        (ProgressManager.mark_success_store c now s)).success_file =
      some ⟨p.database_file, p.database_hash, c.to_dict, now2,
        p.attempts_made⟩ ∧
    (ProgressManager.cleanup_progress now2
        (ProgressManager.mark_success_store c now s)).file_present = false ∧
    (ProgressManager.cleanup_progress now2
        (ProgressManager.mark_success_store c now s)).backup_present = false ∧
    (ProgressManager.load_progress hash db none
        (ProgressManager.file_on_disk
          (ProgressManager.cleanup_progress now2
            (ProgressManager.mark_success_store c now s)))).1 = false := by
  have hstore :
      ProgressManager.mark_success_store c now s =
        { progress := some (ProgressManager.markSuccessP c now p)
          file_present := true
          file_content := some (ProgressManager.markSuccessP c now p)
          backup_present := s.backup_present ∨ s.file_present
          success_file := s.success_file } := by
    simp only [ProgressManager.mark_success_store, hp,
      ProgressManager.save_progress]
    by_cases hf : s.file_present <;> simp [hf]
  rw [hstore]
  simp only [ProgressManager.cleanup_progress, ProgressManager.markSuccessP,
    if_true]
  by_cases hb : s.backup_present ∨ s.file_present <;>
    simp [hb, ProgressManager.file_on_disk, ProgressManager.load_progress]

/-- Witness for claim C7 at a concrete input: a store holding a fresh
record with its working file on disk. -/
theorem cleanup_after_success_witness :
    (StoreState.mk
        (some (ProgressManager.create_new_progress "db.kdbx" "h" "t0" 3))
        true (some (ProgressManager.create_new_progress "db.kdbx" "h" "t0" 3))
        false none).progress =
      some (ProgressManager.create_new_progress "db.kdbx" "h" "t0" 3) ∧
    ((ProgressManager.cleanup_progress "t2"
        (ProgressManager.mark_success_store { passphrase := some "pw" } "t1"
          (StoreState.mk
            (some (ProgressManager.create_new_progress "db.kdbx" "h" "t0" 3))
            true
            (some (ProgressManager.create_new_progress "db.kdbx" "h" "t0" 3))
            false none))).success_file =
      some ⟨"db.kdbx", "h",
        Credential.to_dict { passphrase := some "pw" }, "t2", 0⟩ ∧
    (ProgressManager.cleanup_progress "t2"
        (ProgressManager.mark_success_store { passphrase := some "pw" } "t1"
          (StoreState.mk
            (some (ProgressManager.create_new_progress "db.kdbx" "h" "t0" 3))
            true
            (some (ProgressManager.create_new_progress "db.kdbx" "h" "t0" 3))
            false none))).file_present = false ∧
    (ProgressManager.cleanup_progress "t2"
        (ProgressManager.mark_success_store { passphrase := some "pw" } "t1"
          (StoreState.mk
            (some (ProgressManager.create_new_progress "db.kdbx" "h" "t0" 3))
            true
            (some (ProgressManager.create_new_progress "db.kdbx" "h" "t0" 3))
            false none))).backup_present = false ∧
    (ProgressManager.load_progress "h" "db.kdbx" none
        (ProgressManager.file_on_disk
          (ProgressManager.cleanup_progress "t2"
            (ProgressManager.mark_success_store { passphrase := some "pw" } "t1"
              (StoreState.mk
                (some (ProgressManager.create_new_progress "db.kdbx" "h" "t0" 3))
                true
                (some (ProgressManager.create_new_progress "db.kdbx" "h" "t0" 3))
                false none))))).1 = false) :=
  ⟨rfl,
    cleanup_after_success _
      (ProgressManager.create_new_progress "db.kdbx" "h" "t0" 3)
      { passphrase := some "pw" } "t1" "t2" "h" "db.kdbx" rfl⟩

/-- Claim C4 counterexample: for a credential whose YubiKey slot is `0`
(present but falsy in Python), `_build_keepassxc_command` omits the
`--yubikey` flag, contradicting the claim that the token-slot flag is
present "including slot value 0". -/
theorem yubikey_slot_zero_omits_flag :
    (Credential.mk (some "pw") none (some 0)).yubikey_slot.isSome = true ∧
    "--yubikey" ∉
      RecoveryEngine.build_keepassxc_command "db.kdbx"
        (Credential.mk (some "pw") none (some 0)) := by
  decide

/-- Claim C4 (amended): for every credential, the constructed command
contains the database path; contains `--key-file` iff a keyfile is set;
contains `--yubikey` iff the slot is set and nonzero (Python truthiness
drops slot 0); contains `--no-password` iff the passphrase is absent; the
passphrase is supplied as input data followed by a newline; and the
command never depends on the passphrase's value (only on its presence),
so the passphrase never appears as a command-line argument. The
hypotheses rule out the degenerate case of a database path, keyfile path,
or printed slot value spelled exactly like one of the flags. -/
theorem build_command_contract (db : String) (c : Credential)
    (hdb : db ∉ (["--key-file", "--yubikey", "--no-password"] : List String))
    (hkf : ∀ k, c.keyfile = some k →
      k ∉ (["--key-file", "--yubikey", "--no-password"] : List String))
    (hys : ∀ s, c.yubikey_slot = some s →
      toString s ∉ (["--key-file", "--yubikey", "--no-password"] : List String)) :
    db ∈ RecoveryEngine.build_keepassxc_command db c ∧
    ("--key-file" ∈ RecoveryEngine.build_keepassxc_command db c ↔
      c.keyfile.isSome = true) ∧
    ("--yubikey" ∈ RecoveryEngine.build_keepassxc_command db c ↔
      ∃ s, c.yubikey_slot = some s ∧ s ≠ 0) ∧
    ("--no-password" ∈ RecoveryEngine.build_keepassxc_command db c ↔
      c.passphrase = none) ∧
    RecoveryEngine.test_credential_input c =
      c.passphrase.map (fun s => s ++ "\n") ∧
    (∀ s1 s2,
      RecoveryEngine.build_keepassxc_command db { c with passphrase := some s1 } =
        RecoveryEngine.build_keepassxc_command db { c with passphrase := some s2 }) := by
  obtain ⟨cp, ck, cy⟩ := c
  simp only [List.mem_cons, List.not_mem_nil, or_false] at hdb
  push_neg at hdb
  obtain ⟨hdb1, hdb2, hdb3⟩ := hdb
  cases ck with
  | none =>
    cases cy with
    | none =>
      cases cp <;>
        simp_all [RecoveryEngine.build_keepassxc_command,
          RecoveryEngine.test_credential_input, eq_comm]
    | some s =>
      have hs := hys s rfl
      simp only [List.mem_cons, List.not_mem_nil, or_false] at hs
      push_neg at hs
      by_cases h0 : s = 0 <;> cases cp <;>
        simp_all [RecoveryEngine.build_keepassxc_command,
          RecoveryEngine.test_credential_input, eq_comm]
  | some k =>
    have hk := hkf k rfl
    simp only [List.mem_cons, List.not_mem_nil, or_false] at hk
    push_neg at hk
    cases cy with
    | none =>
      cases cp <;>
        simp_all [RecoveryEngine.build_keepassxc_command,
          RecoveryEngine.test_credential_input, eq_comm]
    | some s =>
      have hs := hys s rfl
      simp only [List.mem_cons, List.not_mem_nil, or_false] at hs
      push_neg at hs
      by_cases h0 : s = 0 <;> cases cp <;>
        simp_all [RecoveryEngine.build_keepassxc_command,
          RecoveryEngine.test_credential_input, eq_comm]

/-- Witness for claim C4 (amended) at a concrete input: passphrase,
keyfile and slot 2 all present. -/
theorem build_command_contract_witness :
    ("db.kdbx" ∉ (["--key-file", "--yubikey", "--no-password"] : List String)) ∧
    (∀ k, (Credential.mk (some "pw") (some "key.bin") (some 2)).keyfile = some k →
      k ∉ (["--key-file", "--yubikey", "--no-password"] : List String)) ∧
    (∀ s, (Credential.mk (some "pw") (some "key.bin") (some 2)).yubikey_slot = some s →
      toString s ∉ (["--key-file", "--yubikey", "--no-password"] : List String)) ∧
    ("db.kdbx" ∈ RecoveryEngine.build_keepassxc_command "db.kdbx"
        (Credential.mk (some "pw") (some "key.bin") (some 2)) ∧
      ("--key-file" ∈ RecoveryEngine.build_keepassxc_command "db.kdbx"
          (Credential.mk (some "pw") (some "key.bin") (some 2)) ↔
        (Credential.mk (some "pw") (some "key.bin") (some 2)).keyfile.isSome = true) ∧
      ("--yubikey" ∈ RecoveryEngine.build_keepassxc_command "db.kdbx"
          (Credential.mk (some "pw") (some "key.bin") (some 2)) ↔
        ∃ s, (Credential.mk (some "pw") (some "key.bin") (some 2)).yubikey_slot = some s ∧ s ≠ 0) ∧
      ("--no-password" ∈ RecoveryEngine.build_keepassxc_command "db.kdbx"
          (Credential.mk (some "pw") (some "key.bin") (some 2)) ↔
        (Credential.mk (some "pw") (some "key.bin") (some 2)).passphrase = none) ∧
      RecoveryEngine.test_credential_input
          (Credential.mk (some "pw") (some "key.bin") (some 2)) =
        (Credential.mk (some "pw") (some "key.bin") (some 2)).passphrase.map
          (fun s => s ++ "\n") ∧
      (∀ s1 s2,
        RecoveryEngine.build_keepassxc_command "db.kdbx"
            { Credential.mk (some "pw") (some "key.bin") (some 2) with
                passphrase := some s1 } =
          RecoveryEngine.build_keepassxc_command "db.kdbx"
            { Credential.mk (some "pw") (some "key.bin") (some 2) with
                passphrase := some s2 })) :=
  ⟨by decide,
    fun k hk => by
      simp only [Option.some.injEq] at hk
      subst hk; decide,
    fun s hs => by
      simp only [Option.some.injEq] at hs
      subst hs; decide,
    build_command_contract "db.kdbx" (Credential.mk (some "pw") (some "key.bin") (some 2))
      (by decide)
      (fun k hk => by
        simp only [Option.some.injEq] at hk
        subst hk; decide)
      (fun s hs => by
        simp only [Option.some.injEq] at hs
        subst hs; decide)⟩


/-- Claim C3: within one run of the attempt loop, each credential is
handed to the external verifier at most once, and no credential already
recorded in the progress record's tried-list (from this run or a resumed
prior one) is ever handed to the verifier; the statement quantifies over
any starting index and positional skip count, covering `run`'s call with
`combination_index = 0` and `skip = get_skip_count`. -/
theorem run_tests_each_at_most_once (oracle : Credential → Bool)
    (now : String) (creds : List Credential) (p : ProgressData)
    (idx skip : Nat) :
    (RecoveryEngine.testedOf
        (RecoveryEngine.runLoop oracle now creds p idx skip).1).Nodup ∧
    ∀ c ∈ RecoveryEngine.testedOf
        (RecoveryEngine.runLoop oracle now creds p idx skip).1,
      c.to_dict ∉ p.tried_combinations := by
  induction creds generalizing p idx with
  | nil => simp [RecoveryEngine.runLoop, RecoveryEngine.testedOf]
  | cons c rest ih =>
    by_cases hskip : idx < skip
    · simpa [RecoveryEngine.runLoop, hskip] using ih p (idx + 1)
    · by_cases htried : ProgressManager.isTriedP c p
      · simpa [RecoveryEngine.runLoop, hskip, htried] using ih p (idx + 1)
      · have hmem : c.to_dict ∉ p.tried_combinations := by
          simpa [ProgressManager.isTriedP] using htried
        by_cases hok : oracle c
        · simp [RecoveryEngine.runLoop, hskip, htried, hok,
            RecoveryEngine.testedOf, hmem]
        · have hp1 : ((ProgressManager.markTriedP c now p).1).tried_combinations
              = p.tried_combinations ++ [c.to_dict] := by
            simp [ProgressManager.markTriedP, hmem]
          obtain ⟨ih1, ih2⟩ := ih ((ProgressManager.markTriedP c now p).1) (idx + 1)
          have hcnot : c ∉ RecoveryEngine.testedOf
              (RecoveryEngine.runLoop oracle now rest
                ((ProgressManager.markTriedP c now p).1) (idx + 1) skip).1 := by
            intro hc
            exact (ih2 c hc) (by rw [hp1]; simp)
          have htr : RecoveryEngine.testedOf
              (RecoveryEngine.runLoop oracle now (c :: rest) p idx skip).1 =
              c :: RecoveryEngine.testedOf
                (RecoveryEngine.runLoop oracle now rest
                  ((ProgressManager.markTriedP c now p).1) (idx + 1) skip).1 := by
            simp [RecoveryEngine.runLoop, hskip, htried, hok,
              RecoveryEngine.testedOf]
          rw [htr]
          constructor
          · exact List.nodup_cons.mpr ⟨hcnot, ih1⟩
          · intro d hd
            rcases List.mem_cons.mp hd with hd | hd
            · subst hd; exact hmem
            · intro hcontra
              exact (ih2 d hd) (by rw [hp1]; exact List.mem_append_left _ hcontra)

/-- Claim C6: whenever the external verifier reports success for some
credential handed to it during the loop, the run returns `true`, the
trace ends with exactly `tested c, marked c (mark_combination_tried),
succeeded c (mark_success), cleaned (cleanup_progress)` in that order with
nothing after, the final record stores `c` as the success credential, and
every credential tested before `c` failed — so no further credential is
tested after the successful one. -/
theorem run_stops_at_success (oracle : Credential → Bool) (now : String)
    (creds : List Credential) (p : ProgressData) (idx skip : Nat)
    (h : ∃ c ∈ RecoveryEngine.testedOf
        (RecoveryEngine.runLoop oracle now creds p idx skip).1,
      oracle c = true) :
    (RecoveryEngine.runLoop oracle now creds p idx skip).2.2 = true ∧
    ∃ pre c,
      (RecoveryEngine.runLoop oracle now creds p idx skip).1 =
        pre ++ [.tested c, .marked c, .succeeded c, .cleaned] ∧
      oracle c = true ∧
      (RecoveryEngine.runLoop oracle now creds p idx skip).2.1.success =
        some c.to_dict ∧
      ∀ d, RecoveryEngine.RunEvent.tested d ∈ pre → oracle d = false := by
  induction creds generalizing p idx with
  | nil => simp [RecoveryEngine.runLoop, RecoveryEngine.testedOf] at h
  | cons c rest ih =>
    by_cases hskip : idx < skip
    · rw [show RecoveryEngine.runLoop oracle now (c :: rest) p idx skip =
          RecoveryEngine.runLoop oracle now rest p (idx + 1) skip by
        simp [RecoveryEngine.runLoop, hskip]]
      rw [show RecoveryEngine.runLoop oracle now (c :: rest) p idx skip =
          RecoveryEngine.runLoop oracle now rest p (idx + 1) skip by
        simp [RecoveryEngine.runLoop, hskip]] at h
      exact ih p (idx + 1) h
    · by_cases htried : ProgressManager.isTriedP c p
      · rw [show RecoveryEngine.runLoop oracle now (c :: rest) p idx skip =
            RecoveryEngine.runLoop oracle now rest p (idx + 1) skip by
          simp [RecoveryEngine.runLoop, hskip, htried]]
        rw [show RecoveryEngine.runLoop oracle now (c :: rest) p idx skip =
            RecoveryEngine.runLoop oracle now rest p (idx + 1) skip by
          simp [RecoveryEngine.runLoop, hskip, htried]] at h
        exact ih p (idx + 1) h
      · by_cases hok : oracle c
        · have hrun : RecoveryEngine.runLoop oracle now (c :: rest) p idx skip =
              ([.tested c, .marked c, .succeeded c, .cleaned],
                ProgressManager.markSuccessP c now
                  (ProgressManager.markTriedP c now p).1, true) := by
            simp [RecoveryEngine.runLoop, hskip, htried, hok]
          rw [hrun]
          refine ⟨rfl, [], c, by simp, hok, ?_, by simp⟩
          simp [ProgressManager.markSuccessP]
        · have hrun : RecoveryEngine.runLoop oracle now (c :: rest) p idx skip =
              (.tested c :: .marked c ::
                  (RecoveryEngine.runLoop oracle now rest
                    ((ProgressManager.markTriedP c now p).1) (idx + 1) skip).1,
                (RecoveryEngine.runLoop oracle now rest
                  ((ProgressManager.markTriedP c now p).1) (idx + 1) skip).2) := by
            simp [RecoveryEngine.runLoop, hskip, htried, hok]
          rw [hrun] at h ⊢
          have hconsEq : RecoveryEngine.testedOf
              (.tested c :: .marked c ::
                (RecoveryEngine.runLoop oracle now rest
                  ((ProgressManager.markTriedP c now p).1) (idx + 1) skip).1) =
              c :: RecoveryEngine.testedOf
                (RecoveryEngine.runLoop oracle now rest
                  ((ProgressManager.markTriedP c now p).1) (idx + 1) skip).1 := by
            simp [RecoveryEngine.testedOf]
          have h' : ∃ d ∈ RecoveryEngine.testedOf
              (RecoveryEngine.runLoop oracle now rest
                ((ProgressManager.markTriedP c now p).1) (idx + 1) skip).1,
              oracle d = true := by
            rcases h with ⟨d, hd, hdo⟩
            rw [hconsEq] at hd
            rcases List.mem_cons.mp hd with hd1 | hd1
            · exact absurd (hd1 ▸ hdo) hok
            · exact ⟨d, hd1, hdo⟩
          obtain ⟨hres, pre', c', htr', hc', hsucc', hpre'⟩ :=
            ih ((ProgressManager.markTriedP c now p).1) (idx + 1) h'
          refine ⟨hres, .tested c :: .marked c :: pre', c', ?_, hc', hsucc', ?_⟩
          · simp [htr']
          · intro d hd
            rcases List.mem_cons.mp hd with hd1 | hd1
            · cases hd1
              simpa using hok
            · rcases List.mem_cons.mp hd1 with hd2 | hd2
              · exact absurd hd2 (by simp)
              · exact hpre' d hd2

/-- Witness for claim C6 at a concrete input: three candidate passphrase
credentials of which the second one unlocks the database. -/
theorem run_stops_at_success_witness :
    (∃ c ∈ RecoveryEngine.testedOf
        (RecoveryEngine.runLoop (fun c => c.passphrase == some "b") "t"
          [{ passphrase := some "a" }, { passphrase := some "b" },
            { passphrase := some "c" }]
          (ProgressManager.create_new_progress "db.kdbx" "h" "t0" 3) 0 0).1,
      (fun c : Credential => c.passphrase == some "b") c = true) ∧
    ((RecoveryEngine.runLoop (fun c => c.passphrase == some "b") "t"
        [{ passphrase := some "a" }, { passphrase := some "b" },
          { passphrase := some "c" }]
        (ProgressManager.create_new_progress "db.kdbx" "h" "t0" 3) 0 0).2.2 = true ∧
      ∃ pre c,
        (RecoveryEngine.runLoop (fun c => c.passphrase == some "b") "t"
            [{ passphrase := some "a" }, { passphrase := some "b" },
              { passphrase := some "c" }]
            (ProgressManager.create_new_progress "db.kdbx" "h" "t0" 3) 0 0).1 =
          pre ++ [.tested c, .marked c, .succeeded c, .cleaned] ∧
        (fun c : Credential => c.passphrase == some "b") c = true ∧
        (RecoveryEngine.runLoop (fun c => c.passphrase == some "b") "t"
            [{ passphrase := some "a" }, { passphrase := some "b" },
              { passphrase := some "c" }]
            (ProgressManager.create_new_progress "db.kdbx" "h" "t0" 3) 0 0).2.1.success =
          some c.to_dict ∧
        ∀ d, RecoveryEngine.RunEvent.tested d ∈ pre →
          (fun c : Credential => c.passphrase == some "b") d = false) :=
  ⟨by decide, run_stops_at_success _ _ _ _ _ _ (by decide)⟩

/-- The code's passphrase option list agrees, as a set, with the spec's
description of the passphrase option set. -/
theorem mem_passphrase_options (m : CredentialManager) (o : Option String) :
    o ∈ m.passphrase_options ↔ specPassphraseOption m o := by
  unfold CredentialManager.passphrase_options specPassphraseOption
  constructor
  · intro ho
    rcases List.mem_append.mp ho with h12 | h3
    · rcases List.mem_append.mp h12 with h1 | h2
      · obtain ⟨s, hs, hso⟩ := List.mem_map.mp h1
        exact Or.inl ⟨s, hs, hso.symm⟩
      · by_cases hf : m.include_no_passphrase = true
        · rw [if_pos hf] at h2
          exact Or.inr ⟨List.mem_singleton.mp h2, Or.inl hf⟩
        · rw [if_neg hf] at h2
          exact absurd h2 (List.not_mem_nil o)
    · by_cases hf : m.passphrases = [] ∧ (m.keyfiles ≠ [] ∨ m.yubikey_slots ≠ [])
      · rw [if_pos hf] at h3
        exact Or.inr ⟨List.mem_singleton.mp h3, Or.inr hf⟩
      · rw [if_neg hf] at h3
        exact absurd h3 (List.not_mem_nil o)
  · intro ho
    rcases ho with ⟨s, hs, hso⟩ | ⟨hnone, hf⟩
    · refine List.mem_append_left _ (List.mem_append_left _ ?_)
      rw [hso]
      exact List.mem_map_of_mem some hs
    · subst hnone
      rcases hf with hf | hf
      · refine List.mem_append_left _ (List.mem_append_right _ ?_)
        rw [if_pos hf]
        exact List.mem_singleton_self none
      · refine List.mem_append_right _ ?_
        rw [if_pos hf]
        exact List.mem_singleton_self none

/-- The code's keyfile option list agrees, as a set, with the spec's
description of the keyfile option set. -/
theorem mem_keyfile_options (m : CredentialManager) (o : Option String) :
    o ∈ m.keyfile_options ↔ specKeyfileOption m o := by
  unfold CredentialManager.keyfile_options specKeyfileOption
  constructor
  · intro ho
    rcases List.mem_append.mp ho with h1 | h2
    · obtain ⟨k, hk, hko⟩ := List.mem_map.mp h1
      exact Or.inl ⟨k, hk, hko.symm⟩
    · by_cases hf : m.include_no_keyfile = true ∨ m.keyfiles = []
      · rw [if_pos hf] at h2
        exact Or.inr ⟨List.mem_singleton.mp h2, hf⟩
      · rw [if_neg hf] at h2
        exact absurd h2 (List.not_mem_nil o)
  · intro ho
    rcases ho with ⟨k, hk, hko⟩ | ⟨hnone, hf⟩
    · refine List.mem_append_left _ ?_
      rw [hko]
      exact List.mem_map_of_mem some hk
    · subst hnone
      refine List.mem_append_right _ ?_
      rw [if_pos hf]
      exact List.mem_singleton_self none

/-- The code's yubikey option list agrees, as a set, with the spec's
description of the token option set. -/
theorem mem_yubikey_options (m : CredentialManager) (o : Option Int) :
    o ∈ m.yubikey_options ↔ specYubikeyOption m o := by
  unfold CredentialManager.yubikey_options specYubikeyOption
  constructor
  · intro ho
    rcases List.mem_append.mp ho with h1 | h2
    · obtain ⟨s, hs, hso⟩ := List.mem_map.mp h1
      exact Or.inl ⟨s, hs, hso.symm⟩
    · by_cases hf : m.include_no_yubikey = true
      · rw [if_pos hf] at h2
        exact Or.inr ⟨List.mem_singleton.mp h2, hf⟩
      · rw [if_neg hf] at h2
        exact absurd h2 (List.not_mem_nil o)
  · intro ho
    rcases ho with ⟨s, hs, hso⟩ | ⟨hnone, hf⟩
    · refine List.mem_append_left _ ?_
      rw [hso]
      exact List.mem_map_of_mem some hs
    · subst hnone
      refine List.mem_append_right _ ?_
      rw [if_pos hf]
      exact List.mem_singleton_self none

/-- The keyfile option list is never empty: with no keyfiles configured
the absent sentinel is always added. -/
theorem keyfile_options_ne_nil (m : CredentialManager) :
    m.keyfile_options ≠ [] := by
  unfold CredentialManager.keyfile_options
  rcases hk : m.keyfiles with _ | ⟨k, ks⟩ <;> simp [hk]

/-- Membership in `generate_combinations` is membership in all three code
option lists minus the all-absent triple. -/
theorem mem_generate_combinations (m : CredentialManager) (c : Credential) :
    c ∈ m.generate_combinations ↔
      (c.passphrase ∈ m.passphrase_options ∧
        c.keyfile ∈ m.keyfile_options ∧
        c.yubikey_slot ∈ m.yubikey_options) ∧
      ¬(c.passphrase = none ∧ c.keyfile = none ∧ c.yubikey_slot = none) := by
  unfold CredentialManager.generate_combinations
  rw [List.mem_map]
  constructor
  · rintro ⟨⟨a, b, y⟩, ht, heq⟩
    rw [List.mem_filter] at ht
    obtain ⟨hmem, hq⟩ := ht
    have h1 := List.pair_mem_product.mp hmem
    have h2 := List.pair_mem_product.mp h1.2
    subst heq
    refine ⟨⟨h1.1, h2.1, h2.2⟩, ?_⟩
    rintro ⟨ha, hb, hy⟩
    simp only at ha hb hy
    subst ha; subst hb; subst hy
    simp at hq
  · rintro ⟨⟨h1, h2, h3⟩, hnn⟩
    refine ⟨(c.passphrase, c.keyfile, c.yubikey_slot), ?_, by cases c; rfl⟩
    rw [List.mem_filter]
    refine ⟨List.pair_mem_product.mpr ⟨h1, List.pair_mem_product.mpr ⟨h2, h3⟩⟩, ?_⟩
    rcases hcp : c.passphrase with _ | s <;>
      rcases hck : c.keyfile with _ | k <;>
        rcases hcy : c.yubikey_slot with _ | y <;>
          simp_all

/-- As long as the no-passphrase flag and the implicit "no passphrases but
other factors" rule do not both fire, the passphrase option list has no
duplicates (given duplicate-free configured passphrases). -/
theorem passphrase_options_nodup (m : CredentialManager)
    (hp : m.passphrases.Nodup)
    (hno : ¬(m.passphrases = [] ∧ m.include_no_passphrase = true ∧
      (m.keyfiles ≠ [] ∨ m.yubikey_slots ≠ []))) :
    m.passphrase_options.Nodup := by
  unfold CredentialManager.passphrase_options
  have hmap : (m.passphrases.map some).Nodup :=
    hp.map (Option.some_injective _)
  by_cases h1 : m.include_no_passphrase = true
  · by_cases h2 : m.passphrases = [] ∧ (m.keyfiles ≠ [] ∨ m.yubikey_slots ≠ [])
    · exact absurd ⟨h2.1, h1, h2.2⟩ hno
    · rw [if_pos h1, if_neg h2]
      simp [List.nodup_append, hmap]
  · rw [if_neg h1]
    by_cases h2 : m.passphrases = [] ∧ (m.keyfiles ≠ [] ∨ m.yubikey_slots ≠ [])
    · rw [if_pos h2]
      simp [List.nodup_append, hmap]
    · rw [if_neg h2]
      simp [hmap]

/-- The keyfile option list has no duplicates (given duplicate-free
configured keyfiles). -/
theorem keyfile_options_nodup (m : CredentialManager)
    (hk : m.keyfiles.Nodup) : m.keyfile_options.Nodup := by
  unfold CredentialManager.keyfile_options
  have hmap : (m.keyfiles.map some).Nodup := hk.map (Option.some_injective _)
  by_cases h : m.include_no_keyfile = true ∨ m.keyfiles = []
  · rw [if_pos h]
    simp [List.nodup_append, hmap]
  · rw [if_neg h]
    simp [hmap]

/-- The yubikey option list has no duplicates (given duplicate-free
configured slots). -/
theorem yubikey_options_nodup (m : CredentialManager)
    (hy : m.yubikey_slots.Nodup) : m.yubikey_options.Nodup := by
  unfold CredentialManager.yubikey_options
  have hmap : (m.yubikey_slots.map some).Nodup := hy.map (Option.some_injective _)
  by_cases h : m.include_no_yubikey = true
  · rw [if_pos h]
    simp [List.nodup_append, hmap]
  · rw [if_neg h]
    simp [hmap]

/-- Rebuilding a `Credential` from an option triple is injective. -/
theorem credential_of_triple_injective : Function.Injective
    (fun t : Option String × Option String × Option Int =>
      ({ passphrase := t.1, keyfile := t.2.1, yubikey_slot := t.2.2 } :
        Credential)) := by
  rintro ⟨a, b, y⟩ ⟨a2, b2, y2⟩ h
  simp only [Credential.mk.injEq] at h
  obtain ⟨h1, h2, h3⟩ := h
  simp_all

/-- Claim C1 counterexample: in the default configuration (all factor
lists empty) the no-yubikey "absent" flag is enabled by default, yet
`count_combinations` is 0 — refuting "equals zero only when every factor
list is empty and every absent flag is disabled". -/
theorem count_zero_with_absent_flag_enabled :
    CredentialManager.count_combinations {} = 0 ∧
    ({} : CredentialManager).include_no_yubikey = true := by
  decide

/-- Claim C1 (amended): `count_combinations` equals the number of
credentials `generate_combinations` yields, and it equals zero exactly
when either all three factor lists are empty (whatever the absent flags),
or the token-slot list is empty and the no-yubikey flag is disabled
(then the token option set itself is empty). -/
theorem count_combinations_correct (m : CredentialManager) :
    m.count_combinations = (m.generate_combinations).length ∧
    (m.count_combinations = 0 ↔
      (m.passphrases = [] ∧ m.keyfiles = [] ∧ m.yubikey_slots = []) ∨
      (m.yubikey_slots = [] ∧ m.include_no_yubikey = false)) := by
  refine ⟨rfl, ?_⟩
  rw [CredentialManager.count_combinations, List.length_eq_zero]
  constructor
  · intro hnil
    by_contra hrhs
    push_neg at hrhs
    obtain ⟨hne, hy⟩ := hrhs
    obtain ⟨k0, hk0⟩ := List.exists_mem_of_ne_nil _ (keyfile_options_ne_nil m)
    have hyopt : ∃ y0, y0 ∈ m.yubikey_options := by
      rcases hY : m.yubikey_slots with _ | ⟨y, ys⟩
      · have hiny : m.include_no_yubikey = true := by
          rcases Bool.eq_false_or_eq_true m.include_no_yubikey with h | h
          · exact h
          · exact absurd (hy hY) (by simp [h])
        exact ⟨none, (mem_yubikey_options m none).mpr (Or.inr ⟨rfl, hiny⟩)⟩
      · refine ⟨some y, (mem_yubikey_options m (some y)).mpr (Or.inl ⟨y, ?_, rfl⟩)⟩
        rw [hY]
        exact List.mem_cons_self y ys
    obtain ⟨y0, hy0⟩ := hyopt
    rcases hP : m.passphrases with _ | ⟨p, ps⟩
    · rcases hK : m.keyfiles with _ | ⟨k, ks⟩
      · rcases hY : m.yubikey_slots with _ | ⟨y, ys⟩
        · exact hne hP hK hY
        · have hpnone : (none : Option String) ∈ m.passphrase_options :=
            (mem_passphrase_options m none).mpr
              (Or.inr ⟨rfl, Or.inr ⟨hP, Or.inr (by simp [hY])⟩⟩)
          have hknone : (none : Option String) ∈ m.keyfile_options :=
            (mem_keyfile_options m none).mpr (Or.inr ⟨rfl, Or.inr hK⟩)
          have hymem : (some y : Option Int) ∈ m.yubikey_options := by
            refine (mem_yubikey_options m (some y)).mpr (Or.inl ⟨y, ?_, rfl⟩)
            rw [hY]
            exact List.mem_cons_self y ys
          have hgen : Credential.mk none none (some y) ∈ m.generate_combinations := by
            rw [mem_generate_combinations]
            exact ⟨⟨hpnone, hknone, hymem⟩, by simp⟩
          rw [hnil] at hgen
          exact absurd hgen (List.not_mem_nil _)
      · have hpnone : (none : Option String) ∈ m.passphrase_options :=
          (mem_passphrase_options m none).mpr
            (Or.inr ⟨rfl, Or.inr ⟨hP, Or.inl (by simp [hK])⟩⟩)
        have hkmem : (some k : Option String) ∈ m.keyfile_options := by
          refine (mem_keyfile_options m (some k)).mpr (Or.inl ⟨k, ?_, rfl⟩)
          rw [hK]
          exact List.mem_cons_self k ks
        have hgen : Credential.mk none (some k) y0 ∈ m.generate_combinations := by
          rw [mem_generate_combinations]
          exact ⟨⟨hpnone, hkmem, hy0⟩, by simp⟩
        rw [hnil] at hgen
        exact absurd hgen (List.not_mem_nil _)
    · have hpmem : (some p : Option String) ∈ m.passphrase_options := by
        refine (mem_passphrase_options m (some p)).mpr (Or.inl ⟨p, ?_, rfl⟩)
        rw [hP]
        exact List.mem_cons_self p ps
      have hgen : Credential.mk (some p) k0 y0 ∈ m.generate_combinations := by
        rw [mem_generate_combinations]
        exact ⟨⟨hpmem, hk0, hy0⟩, by simp⟩
      rw [hnil] at hgen
      exact absurd hgen (List.not_mem_nil _)
  · intro h
    rw [List.eq_nil_iff_forall_not_mem]
    intro c hc
    rw [mem_generate_combinations] at hc
    obtain ⟨⟨h1, h2, h3⟩, hnn⟩ := hc
    rcases h with ⟨hP, hK, hY⟩ | ⟨hY, hiny⟩
    · have hp : c.passphrase = none := by
        rcases (mem_passphrase_options m _).mp h1 with ⟨s, hs, _⟩ | ⟨hn, _⟩
        · rw [hP] at hs
          exact absurd hs (List.not_mem_nil s)
        · exact hn
      have hk : c.keyfile = none := by
        rcases (mem_keyfile_options m _).mp h2 with ⟨k, hks, _⟩ | ⟨hn, _⟩
        · rw [hK] at hks
          exact absurd hks (List.not_mem_nil k)
        · exact hn
      have hyy : c.yubikey_slot = none := by
        rcases (mem_yubikey_options m _).mp h3 with ⟨s, hs, _⟩ | ⟨hn, _⟩
        · rw [hY] at hs
          exact absurd hs (List.not_mem_nil s)
        · exact hn
      exact hnn ⟨hp, hk, hyy⟩
    · rcases (mem_yubikey_options m _).mp h3 with ⟨s, hs, _⟩ | ⟨_, hflag⟩
      · rw [hY] at hs
        exact absurd hs (List.not_mem_nil s)
      · rw [hiny] at hflag
        exact absurd hflag (by simp)

/-- Claim C2 counterexample: with no passphrases configured, the
no-passphrase flag enabled, and one keyfile present, `None` is appended
to the passphrase options twice (once for the flag, once for the "no
passphrases but other factors" rule), so the single distinct combination
appears twice in the generated sequence rather than exactly once. -/
theorem generate_combinations_duplicate :
    CredentialManager.generate_combinations
        { keyfiles := ["k"], include_no_passphrase := true } =
      [Credential.mk none (some "k") none, Credential.mk none (some "k") none] ∧
    ¬(CredentialManager.generate_combinations
        { keyfiles := ["k"], include_no_passphrase := true }).Nodup := by
  decide

/-- Claim C2 (amended): provided the three configured factor lists are
duplicate-free and it is not the case that no passphrases are configured
while the no-passphrase flag is enabled and keyfiles or slots are present
(the case in which the absent-passphrase sentinel is duplicated), the
generated sequence contains each distinct combination exactly once
(it is duplicate-free), a credential is generated iff each factor lies in
the spec's option set (configured options plus the applicable absent
sentinel) and not all three factors are absent, and the all-absent triple
never appears. -/
theorem generate_combinations_is_product (m : CredentialManager)
    (hp : m.passphrases.Nodup) (hk : m.keyfiles.Nodup)
    (hy : m.yubikey_slots.Nodup)
    (hno : ¬(m.passphrases = [] ∧ m.include_no_passphrase = true ∧
      (m.keyfiles ≠ [] ∨ m.yubikey_slots ≠ []))) :
    (m.generate_combinations).Nodup ∧
    (∀ c : Credential, c ∈ m.generate_combinations ↔
      (specPassphraseOption m c.passphrase ∧
        specKeyfileOption m c.keyfile ∧
        specYubikeyOption m c.yubikey_slot) ∧
      ¬(c.passphrase = none ∧ c.keyfile = none ∧ c.yubikey_slot = none)) ∧
    Credential.mk none none none ∉ m.generate_combinations := by
  have hmemiff : ∀ c : Credential, c ∈ m.generate_combinations ↔
      (specPassphraseOption m c.passphrase ∧
        specKeyfileOption m c.keyfile ∧
        specYubikeyOption m c.yubikey_slot) ∧
      ¬(c.passphrase = none ∧ c.keyfile = none ∧ c.yubikey_slot = none) := by
    intro c
    rw [mem_generate_combinations, mem_passphrase_options,
      mem_keyfile_options, mem_yubikey_options]
  refine ⟨?_, hmemiff, ?_⟩
  · unfold CredentialManager.generate_combinations
    have h1 := passphrase_options_nodup m hp hno
    have h2 := keyfile_options_nodup m hk
    have h3 := yubikey_options_nodup m hy
    exact ((h1.product (h2.product h3)).filter _).map
      credential_of_triple_injective
  · intro hmem
    rw [hmemiff] at hmem
    exact hmem.2 ⟨rfl, rfl, rfl⟩

/-- Witness for claim C2 (amended) at a concrete input: one passphrase,
one keyfile, one slot, default flags. -/
theorem generate_combinations_is_product_witness :
    (["a"] : List String).Nodup ∧ (["k"] : List String).Nodup ∧
    ([1] : List Int).Nodup ∧
    ¬((["a"] : List String) = [] ∧
      ({ passphrases := ["a"], keyfiles := ["k"], yubikey_slots := [1] } :
        CredentialManager).include_no_passphrase = true ∧
      ((["k"] : List String) ≠ [] ∨ ([1] : List Int) ≠ [])) ∧
    ((CredentialManager.generate_combinations
        { passphrases := ["a"], keyfiles := ["k"], yubikey_slots := [1] }).Nodup ∧
      (∀ c : Credential, c ∈ CredentialManager.generate_combinations
          { passphrases := ["a"], keyfiles := ["k"], yubikey_slots := [1] } ↔
        (specPassphraseOption
            { passphrases := ["a"], keyfiles := ["k"], yubikey_slots := [1] }
            c.passphrase ∧
          specKeyfileOption
            { passphrases := ["a"], keyfiles := ["k"], yubikey_slots := [1] }
            c.keyfile ∧
          specYubikeyOption
            { passphrases := ["a"], keyfiles := ["k"], yubikey_slots := [1] }
            c.yubikey_slot) ∧
        ¬(c.passphrase = none ∧ c.keyfile = none ∧ c.yubikey_slot = none)) ∧
      Credential.mk none none none ∉
        CredentialManager.generate_combinations
          { passphrases := ["a"], keyfiles := ["k"], yubikey_slots := [1] }) :=
  ⟨by decide, by decide, by decide, by decide,
    generate_combinations_is_product
      { passphrases := ["a"], keyfiles := ["k"], yubikey_slots := [1] }
      (by decide) (by decide) (by decide) (by decide)⟩
